import Mathlib

/-!
Shallow embedding of `lksmith.c` (the Locksmith runtime lock-order
verifier) and verification of its specification claims.

Machine integers are modelled as `Nat` (with explicit `% 2 ^ 64` where
`size_t` wraparound matters).  Byte arrays are modelled as total
functions `Nat → Nat` giving the byte at each offset, together with the
allocated capacity tracked separately; a write whose range exceeds the
capacity is an out-of-bounds write in the C program.  Fallible
allocation (`malloc` / `realloc`) is modelled by explicit Boolean
oracles, and the uninitialized contents that `realloc` leaves in freshly
allocated bytes by a `garbage` oracle.
-/

namespace Lksmith

/-- `2 ^ 64`, the modulus of `size_t` arithmetic on the target platform. -/
def U64 : Nat := 2 ^ 64

/-- errno value `EIO` (Linux). -/
def Eio : Int := 5
/-- errno value `ENOMEM` (Linux). -/
def ENOMEM : Int := 12
/-- errno value `EBUSY` (Linux). -/
def EBUSY : Int := 16
/-- errno value `EINVAL` (Linux). -/
def EINVAL : Int := 22
/-- errno value `ENAMETOOLONG` (Linux). -/
def ENAMETOOLONG : Int := 36

/-- `#define LKSMITH_BEFORE_MIN 16` — minimum size of the before bitfield. -/
def LKSMITH_BEFORE_MIN : Nat := 16

/-- Modelled from the spec: `bitfield.h` is not among the sources.  The
used-bitmap stores one bit per index in a byte array; `BITFIELD_MEM n`
is the number of bytes needed for `n` bits.  The `(bits + 7) / 8`
formula is also what `lksmith_realloc_lock_data` computes inline for the
same quantity. -/
def BITFIELD_MEM (n : Nat) : Nat := (n + 7) / 8

/-- `sizeof(struct lksmith_lock_data)` on the target platform:
8 bytes (`uint64_t nlock`) + 4 (`uint32_t id`) + 4 (`int before_size`);
the flexible array member `before[0]` contributes nothing. -/
def SIZEOF_LOCK_DATA : Nat := 16

/-- `struct lksmith_lock_data`.  The flexible-array bitfield `before[0]`
is modelled as the total function `before` giving each byte of the
array; its allocated capacity is `BITFIELD_MEM before_size` bytes, and
values of `before` at offsets at or beyond the capacity are junk. -/
structure lksmith_lock_data where
  nlock : Nat
  id : Nat
  before_size : Nat
  before : Nat → Nat

/-- Result of `lksmith_realloc_lock_data`.  `data` is the record the
`struct lksmith_lock_data **data` out-parameter points to afterwards
(`none` models the `LKSMITH_ERROR_OOM` return, which leaves `*data`
unchanged).  `msStart`/`msLen`/`msRan` record the byte offset into
`before[]`, the byte count (computed in wrapping `size_t` arithmetic),
and whether the grow-path `memset` executed, so that theorems can speak
about the write's bounds. -/
structure ReallocOut where
  data : Option lksmith_lock_data
  msStart : Nat
  msLen : Nat
  msRan : Bool

/-- `lksmith_realloc_lock_data(data, before_size)` (lksmith.c:94-124).
`old` is `*data` on entry, `allocOk` whether `realloc` succeeds, and
`garbage` the uninitialized contents of freshly allocated bytes.

The source computes
  `new_size = sizeof(struct lksmith_lock_data) + BITFIELD_MEM(before_size)`,
reads `old_size` from the old record (in bits) or `0`, reallocates, then
either zeroes the whole allocation (`old_size == 0`) or, when
`(new_size + 7) / 8 > (old_size + 7) / 8`, does
  `memset(&new_data->before[old_byte_size], 0, new_byte_size - before_size)`
with the subtraction performed in `size_t` arithmetic.  Both `memset`
effects are modelled on the `before` function exactly over the byte
range the source names; the range itself is returned for inspection. -/
def lksmith_realloc_lock_data (old : Option lksmith_lock_data)
    (before_size : Nat) (allocOk : Bool) (garbage : Nat → Nat) : ReallocOut :=
  let new_size := SIZEOF_LOCK_DATA + BITFIELD_MEM before_size
  let old_size := match old with
    | some d => d.before_size
    | none => 0
  if allocOk = false then
    { data := none, msStart := 0, msLen := 0, msRan := false }
  else if old_size = 0 then
    -- memset(new_data, 0, new_size): the header fields and every byte of
    -- the allocated before-array become zero; then before_size is set.
    { data := some { nlock := 0, id := 0, before_size := before_size,
                     before := fun j =>
                       if j < BITFIELD_MEM before_size then 0 else garbage j },
      msStart := 0, msLen := 0, msRan := false }
  else
    match old with
    | none =>
      -- unreachable: old_size ≠ 0 forces old = some _
      { data := none, msStart := 0, msLen := 0, msRan := false }
    | some d =>
      -- realloc keeps the old allocation's bytes; beyond them, garbage
      let base : Nat → Nat := fun j =>
        if j < BITFIELD_MEM d.before_size then d.before j else garbage j
      let old_byte_size := (old_size + 7) / 8
      let new_byte_size := (new_size + 7) / 8
      if old_byte_size < new_byte_size then
        -- memset(&new_data->before[old_byte_size], 0,
        --        new_byte_size - before_size)  [size_t subtraction]
        let len := (new_byte_size + U64 - before_size % U64) % U64
        { data := some { nlock := d.nlock, id := d.id, before_size := before_size,
                         before := fun j =>
                           if old_byte_size ≤ j ∧ j < old_byte_size + len then 0
                           else base j },
          msStart := old_byte_size, msLen := len, msRan := true }
      else
        { data := some { nlock := d.nlock, id := d.id, before_size := before_size,
                         before := base },
          msStart := 0, msLen := 0, msRan := false }

/-- Bit `i` of a lock record's before bitfield, read from its byte
array the way `BITFIELD_TEST` does. -/
def beforeBit (d : lksmith_lock_data) (i : Nat) : Nat :=
  d.before (i / 8) / 2 ^ (i % 8) % 2

/-- The Locksmith globals protected by `g_internal_lock`
(lksmith.c:42-55).  `g_locks` is the pointer table (slot `i` holds the
record pointer, `none` = NULL or uninitialized); `g_locks_size` the
variable of the same name; `g_locks_used` gives bit `i` of the used
bitmap; `g_locks_used_bytes` the allocated byte count of that bitmap
(setting a bit `i` with `i / 8 ≥ g_locks_used_bytes` is an
out-of-bounds write in the C program). -/
structure LkState where
  g_locks : List (Option lksmith_lock_data)
  g_locks_size : Nat
  g_locks_used : Nat → Bool
  g_locks_used_bytes : Nat

/-- The process-start state: both pointers NULL, size 0. -/
def initialState : LkState :=
  { g_locks := [], g_locks_size := 0, g_locks_used := fun _ => false,
    g_locks_used_bytes := 0 }

/-- `BITFIELD_SET` on the used bitmap: turn bit `i` on. -/
def setBit (f : Nat → Bool) (i : Nat) : Nat → Bool :=
  fun j => if j = i then true else f j

/-- The scan loop `for (i = 0; i < g_locks_size; i++) if
(!BITFIELD_TEST(g_locks_used, i)) break;` — `i` is the loop counter on
entry, `k` the number of iterations left before `i` reaches the size. -/
def scanAux (used : Nat → Bool) : Nat → Nat → Nat
  | i, 0 => i
  | i, k + 1 => if used i then scanAux used (i + 1) k else i

/-- Value of `i` after the scan loop of `lksmith_alloc_next_lock_id`:
the first index below `size` whose used bit is clear, or `size`. -/
def lksmith_scan (used : Nat → Bool) (size : Nat) : Nat :=
  scanAux used 0 size

/-- `lksmith_alloc_next_lock_id` (lksmith.c:134-162).  `okUsed` and
`okLocks` are the success oracles of the two `realloc` calls in the
growth branch.  Returns the `int` result (`none` models the negative
`LKSMITH_ERROR_OOM` return) and the updated globals.

The growth branch is guarded exactly as in the source, by
`i > g_locks_size`.  Inside it, the used bitmap is reallocated to
`BITFIELD_MEM(i)` bytes only when that exceeds the current
`BITFIELD_MEM(g_locks_size)`, then `g_locks` is reallocated to `i`
pointer slots (fresh slots uninitialized, modelled `none`) and
`g_locks_size` set to `i`.  Afterwards `BITFIELD_SET(g_locks_used, i)`
runs and `i` is returned. -/
def lksmith_alloc_next_lock_id (s : LkState) (okUsed okLocks : Bool) :
    Option Nat × LkState :=
  let i := lksmith_scan s.g_locks_used s.g_locks_size
  if s.g_locks_size < i then
    if BITFIELD_MEM s.g_locks_size < BITFIELD_MEM i ∧ okUsed = false then
      (none, s)
    else
      let s1 := if BITFIELD_MEM s.g_locks_size < BITFIELD_MEM i then
                  { s with g_locks_used_bytes := BITFIELD_MEM i }
                else s
      if okLocks = false then
        (none, s1)
      else
        let s2 := { s1 with
          g_locks := s1.g_locks.take i ++
            List.replicate (i - s1.g_locks.length) none,
          g_locks_size := i }
        (some i, { s2 with g_locks_used := setBit s2.g_locks_used i })
  else
    (some i, { s with g_locks_used := setBit s.g_locks_used i })

/-- The `LKSMITH_ERROR_*` codes that `lksmith_pthread_mutex_init` can
hand to the error callback (their numeric values live in the header). -/
inductive LkErrCode where
  | OOM
  | CREATE_WHILE_IN_USE
  deriving DecidableEq, Repr

/-- Observable synchronization / reporting events of
`lksmith_pthread_mutex_init`, in program order: operations on
`g_internal_lock` and invocations of the error callback. -/
inductive LkEvent where
  | lockInternal
  | unlockInternal
  | callbackCall (code : LkErrCode)
  deriving DecidableEq, Repr

/-- Result of `lksmith_pthread_mutex_init`: the errno-style return
value, the globals afterwards, the mutex handle's `info.data` slot
afterwards, and the trace of internal-lock / callback events. -/
structure InitOut where
  ret : Int
  state : LkState
  mutexData : Option lksmith_lock_data
  events : List LkEvent

/-- `lksmith_pthread_mutex_init(name, mutex, mutexattr)`
(lksmith.c:164-213).  `mutexData` is `mutex->info.data` on entry;
`okUsed`/`okLocks`/`okData` are the allocation oracles for the two
reallocs inside `lksmith_alloc_next_lock_id` and the one inside
`lksmith_realloc_lock_data`; `garbage` is the fresh-memory oracle.

Control flow mirrored from the source: take `g_internal_lock`;
allocate an id (failure → `ret = LKSMITH_ERROR_OOM`, goto error);
build a fresh record with `lksmith_realloc_lock_data(&data,
LKSMITH_BEFORE_MIN)` (failure → `LKSMITH_ERROR_OOM`, goto error); set
`data->id`; compare-and-swap the record into `mutex->info.data` if that
slot is NULL (the source writes `__sync_val_compare_and_swap(&mutex->
info.data, NULL)` with the new-value argument missing — embedded as the
only well-formed completion, swapping in `data`); if the old value was
non-NULL, read the callback, unlock `g_internal_lock`, set
`LKSMITH_ERROR_CREATE_WHILE_IN_USE` and goto error; otherwise unlock
and return 0.  The error label frees `data`, reads the callback,
unlocks `g_internal_lock` (again, on the in-use path), invokes the
callback, and maps the code to `EBUSY` / `ENOMEM` / `EINVAL`. -/
def lksmith_pthread_mutex_init (s : LkState)
    (mutexData : Option lksmith_lock_data)
    (okUsed okLocks okData : Bool) (garbage : Nat → Nat) : InitOut :=
  match lksmith_alloc_next_lock_id s okUsed okLocks with
  | (none, s1) =>
    { ret := ENOMEM, state := s1, mutexData := mutexData,
      events := [LkEvent.lockInternal, LkEvent.unlockInternal,
                 LkEvent.callbackCall LkErrCode.OOM] }
  | (some next_lock_id, s1) =>
    match (lksmith_realloc_lock_data none LKSMITH_BEFORE_MIN okData garbage).data with
    | none =>
      { ret := ENOMEM, state := s1, mutexData := mutexData,
        events := [LkEvent.lockInternal, LkEvent.unlockInternal,
                   LkEvent.callbackCall LkErrCode.OOM] }
    | some d0 =>
      match mutexData with
      | some prev =>
        -- prev non-NULL: the CAS left the slot alone; the in-use branch
        -- unlocks g_internal_lock, then the error label unlocks it again
        { ret := EBUSY, state := s1, mutexData := some prev,
          events := [LkEvent.lockInternal, LkEvent.unlockInternal,
                     LkEvent.unlockInternal,
                     LkEvent.callbackCall LkErrCode.CREATE_WHILE_IN_USE] }
      | none =>
        { ret := 0, state := s1,
          mutexData := some { d0 with id := next_lock_id },
          events := [LkEvent.lockInternal, LkEvent.unlockInternal] }

/-- `(LKSMITH_API_VERSION >> 16) & 0xffff`, the major component of
the packed version word `v`. -/
def versionMajor (v : Nat) : Nat := (v >>> 16) &&& 0xffff

/-- `LKSMITH_API_VERSION & 0xffff`, the minor component. -/
def versionMinor (v : Nat) : Nat := v &&& 0xffff

/-- The string `snprintf(str, str_len, "%d.%d", major, minor)`
formats (before any truncation). -/
def versionStr (v : Nat) : String :=
  toString (versionMajor v) ++ "." ++ toString (versionMinor v)

/-- Result of `lksmith_verion_to_str`: the `int` return value and the
characters written into `str` (without the terminating NUL). -/
structure VerOut where
  ret : Int
  buf : String

set_option linter.unusedVariables false in
/-- `lksmith_verion_to_str(ver, str, str_len)` (lksmith.c:65-78).
`apiVer` models the compile-time constant `LKSMITH_API_VERSION`, which
is defined in the header `lksmith.h` (absent from the sources); every
theorem below quantifies over it.  `fmtOk` models whether `snprintf`
succeeds (returns a non-negative count).  The source formats
`LKSMITH_API_VERSION` — not the `ver` argument — returns `-EIO` when
`snprintf` fails, `-ENAMETOOLONG` when the needed length `res`
satisfies `res >= str_len`, and `0` otherwise.  `snprintf` writes at
most `str_len - 1` characters plus a NUL. -/
def lksmith_verion_to_str (apiVer : Nat) (ver : Nat) (str_len : Nat)
    (fmtOk : Bool) : VerOut :=
  let s := versionStr apiVer
  if fmtOk = false then
    { ret := -Eio, buf := "" }
  else if str_len ≤ s.length then
    { ret := -ENAMETOOLONG, buf := s.take (str_len - 1) }
  else
    { ret := 0, buf := s }

/-- Modelled from the spec (§4.3): a `LOCK_ORDER_VIOLATION` report
naming the lock being acquired and the held lock it conflicts with. -/
inductive SpecReport where
  | orderViolation (acquiring held : Nat)
  deriving DecidableEq, Repr

/-- Modelled from the spec (§4.3, step 2b): record the edge `h → L`
by setting bit `L` in `h`'s before-set.  The ordering graph is the
predicate `g a b` = "bit `b` is set in `a`'s before-set". -/
def setEdge (g : Nat → Nat → Bool) (h L : Nat) : Nat → Nat → Bool :=
  fun a b => if a = h ∧ b = L then true else g a b

/-- Modelled from the spec (§4.3, step 2a): bounded transitive
reachability over before-sets.  `n` is the number of known lock ids;
`reachFuel g n fuel L h` holds when `h` is in `L`'s before-set or
reachable from it through at most `fuel - 1` further edges.  Paths that
revisit no id have length at most `n + 1`, so fuel `n + 1` realizes the
spec's visited-bounded traversal. -/
def reachFuel (g : Nat → Nat → Bool) (n : Nat) : Nat → Nat → Nat → Bool
  | 0, _, _ => false
  | fuel + 1, L, h =>
    g L h || (List.range n).any fun y => g L y && reachFuel g n fuel y h

/-- Modelled from the spec (§4.3, step 2): iterate over the
hold-context `H` in held order; for each held `h`, report a violation
when `h` is already reachable from the lock `L` being acquired,
otherwise record the edge `h → L`.  Returns the updated graph and the
reports in held order. -/
def detectLoop (n L : Nat) :
    (Nat → Nat → Bool) → List Nat → (Nat → Nat → Bool) × List SpecReport
  | g, [] => (g, [])
  | g, h :: rest =>
    if reachFuel g n (n + 1) L h then
      let r := detectLoop n L g rest
      (r.1, SpecReport.orderViolation L h :: r.2)
    else
      detectLoop n L (setEdge g h L) rest

/-- Result of the spec-modelled acquire step: the ordering graph, the
acquiring thread's hold-context, and the emitted reports. -/
structure AcquireOut where
  graph : Nat → Nat → Bool
  ctx : List Nat
  reports : List SpecReport

/-- Modelled from the spec (§4.3): the Violation Detector's whole
acquire step for lock `L` by a thread whose hold-context is `H`, over a
graph `g` with `n` known ids — `lksmith_pthread_mutex_lock`
(lksmith.c:223-225) has an empty body, so the detection logic it is
specified to run is taken from the spec.  The acquisition itself always
proceeds: `L` is pushed onto the hold-context (step 3) whatever the
reports say. -/
def specAcquire (g : Nat → Nat → Bool) (n : Nat) (H : List Nat) (L : Nat) :
    AcquireOut :=
  let r := detectLoop n L g H
  { graph := r.1, ctx := H ++ [L], reports := r.2 }

/-! ## Helper lemmas about the allocator's scan loop -/

theorem scanAux_le (used : Nat → Bool) : ∀ (k i : Nat), scanAux used i k ≤ i + k
  | 0, i => by simp [scanAux]
  | k + 1, i => by
    by_cases h : used i = true
    · have hrec := scanAux_le used k (i + 1)
      simp only [scanAux, h, if_true]
      omega
    · simp only [scanAux, h, if_false, Bool.false_eq_true]
      omega

theorem scanAux_all (used : Nat → Bool) :
    ∀ (k i : Nat), (∀ j, j < k → used (i + j) = true) → scanAux used i k = i + k
  | 0, i, _ => by simp [scanAux]
  | k + 1, i, hall => by
    have h0 : used i = true := by simpa using hall 0 (by omega)
    have hrec := scanAux_all used k (i + 1) fun j hj => by
      have := hall (j + 1) (by omega)
      rwa [show i + 1 + j = i + (j + 1) by omega]
    simp only [scanAux, h0, if_true, hrec]
    omega

theorem lksmith_scan_le (used : Nat → Bool) (size : Nat) :
    lksmith_scan used size ≤ size := by
  simpa [lksmith_scan] using scanAux_le used size 0

theorem lksmith_scan_full (used : Nat → Bool) (size : Nat)
    (h : ∀ j, j < size → used j = true) : lksmith_scan used size = size := by
  simpa [lksmith_scan] using scanAux_all used size 0 fun j hj => by
    simpa using h j hj

/-- A registry state whose capacity is one slot, with that slot's used
bit set: the used bitmap holds no clear bit below `g_locks_size`. -/
def fullState1 : LkState :=
  { g_locks := [none], g_locks_size := 1, g_locks_used := fun j => j == 0,
    g_locks_used_bytes := 1 }

/-- **C10.** In `lksmith_alloc_next_lock_id`, after the scan loop the
index `i` is always at most `g_locks_size`, so the growth branch
guarded by `i > g_locks_size` is unreachable for every allocator state;
consequently, when every bit within `g_locks_size` is already used, the
function returns `i = g_locks_size` — one position past the bitmap's
valid range — and sets that bit, without having grown the bitmap
(`g_locks_used_bytes`), the table (`g_locks`), or `g_locks_size`. -/
theorem alloc_growth_branch_dead (s : LkState) (okUsed okLocks : Bool) :
    lksmith_scan s.g_locks_used s.g_locks_size ≤ s.g_locks_size ∧
    ((∀ j, j < s.g_locks_size → s.g_locks_used j = true) →
      (lksmith_alloc_next_lock_id s okUsed okLocks).1 = some s.g_locks_size ∧
      (lksmith_alloc_next_lock_id s okUsed okLocks).2.g_locks_size
        = s.g_locks_size ∧
      (lksmith_alloc_next_lock_id s okUsed okLocks).2.g_locks = s.g_locks ∧
      (lksmith_alloc_next_lock_id s okUsed okLocks).2.g_locks_used_bytes
        = s.g_locks_used_bytes ∧
      (lksmith_alloc_next_lock_id s okUsed okLocks).2.g_locks_used
        s.g_locks_size = true) := by
  have hle := lksmith_scan_le s.g_locks_used s.g_locks_size
  refine ⟨hle, fun hall => ?_⟩
  have hfull := lksmith_scan_full s.g_locks_used s.g_locks_size hall
  have hnot : ¬ s.g_locks_size < lksmith_scan s.g_locks_used s.g_locks_size :=
    by omega
  simp only [lksmith_alloc_next_lock_id]
  rw [if_neg hnot, hfull]
  exact ⟨rfl, rfl, rfl, rfl, by simp [setBit]⟩

/-- Witness for C10 at the concrete full one-slot state. -/
theorem alloc_growth_branch_dead_witness :
    lksmith_scan fullState1.g_locks_used fullState1.g_locks_size
      ≤ fullState1.g_locks_size ∧
    (lksmith_alloc_next_lock_id fullState1 true true).1
      = some fullState1.g_locks_size ∧
    (lksmith_alloc_next_lock_id fullState1 true true).2.g_locks_size
      = fullState1.g_locks_size ∧
    (lksmith_alloc_next_lock_id fullState1 true true).2.g_locks
      = fullState1.g_locks ∧
    (lksmith_alloc_next_lock_id fullState1 true true).2.g_locks_used_bytes
      = fullState1.g_locks_used_bytes ∧
    (lksmith_alloc_next_lock_id fullState1 true true).2.g_locks_used
      fullState1.g_locks_size = true := by
  have h := alloc_growth_branch_dead fullState1 true true
  have h2 := h.2 (by decide)
  exact ⟨h.1, h2.1, h2.2.1, h2.2.2.1, h2.2.2.2.1, h2.2.2.2.2⟩

/-- **C3.** The claim states that when every bit within `g_locks_size`
is set, `lksmith_alloc_next_lock_id` grows both the used bitmap and the
`g_locks` table and never returns an index without having capacity for
it.  Evaluating the code at the full one-slot state refutes this: the
call returns index 1 while `g_locks_size`, the table length and the
bitmap's byte count all remain 1 — no growth happened and the returned
index has no slot. -/
theorem alloc_full_no_growth :
    (lksmith_alloc_next_lock_id fullState1 true true).1 = some 1 ∧
    (lksmith_alloc_next_lock_id fullState1 true true).2.g_locks_size = 1 ∧
    (lksmith_alloc_next_lock_id fullState1 true true).2.g_locks.length = 1 ∧
    (lksmith_alloc_next_lock_id fullState1 true true).2.g_locks_used_bytes
      = 1 ∧
    (lksmith_alloc_next_lock_id fullState1 true true).2.g_locks_used 1
      = true := by
  refine ⟨rfl, rfl, rfl, rfl, rfl⟩

/-- A lock record already attached to a mutex handle, used as the
`mutex->info.data` value of an already-initialized mutex. -/
def dummyLock : lksmith_lock_data :=
  { nlock := 0, id := 0, before_size := 0, before := fun _ => 0 }

/-- **C2.** The claim states the invariant "bit `i` of `g_locks_used`
is set iff slot `i` of `g_locks` holds a live Lock Record", and in
particular that after a successful `lksmith_pthread_mutex_init` that
allocated id `i`, `g_locks[i]` points to the new record.  Evaluating
the code on a fresh mutex from the process-start state refutes this:
the call succeeds (returns 0) and attaches the record to the mutex
handle, bit 0 of the used bitmap is set, yet `g_locks` still has no
slot at all — the function never stores the record into the table. -/
theorem init_never_stores_record :
    (lksmith_pthread_mutex_init initialState none true true true
      (fun _ => 0)).ret = 0 ∧
    (lksmith_pthread_mutex_init initialState none true true true
      (fun _ => 0)).mutexData.isSome = true ∧
    (lksmith_pthread_mutex_init initialState none true true true
      (fun _ => 0)).state.g_locks_used 0 = true ∧
    (lksmith_pthread_mutex_init initialState none true true true
      (fun _ => 0)).state.g_locks.length = 0 := by
  refine ⟨rfl, rfl, rfl, rfl⟩

/-- **C4.** The claim states that every failure return of
`lksmith_pthread_mutex_init` releases all partially allocated state:
the used bit of the freshly allocated lock id is cleared again, leaving
the registry unchanged.  Evaluating the code on an already-initialized
mutex from the process-start state refutes this: before the call bit 0
is clear; the call fails with `EBUSY`, frees the record, but leaves
bit 0 of the used bitmap set — the lock id leaks. -/
theorem init_error_leaks_lock_id :
    initialState.g_locks_used 0 = false ∧
    (lksmith_pthread_mutex_init initialState (some dummyLock) true true true
      (fun _ => 0)).ret = EBUSY ∧
    (lksmith_pthread_mutex_init initialState (some dummyLock) true true true
      (fun _ => 0)).state.g_locks_used 0 = true := by
  refine ⟨rfl, rfl, rfl⟩

/-- **C7.** The claim states that `lksmith_pthread_mutex_init` invokes
the error callback only after releasing `g_internal_lock`, and that the
internal lock is locked and unlocked in balanced pairs on every path.
Evaluating the code on an already-initialized mutex refutes the balance
part: the event trace is lock, unlock, unlock, callback — the in-use
branch unlocks `g_internal_lock` and the error label unlocks it a
second time, two unlocks for a single acquisition (the callback does
come after the releases). -/
theorem init_in_use_double_unlock :
    (lksmith_pthread_mutex_init initialState (some dummyLock) true true true
      (fun _ => 0)).events =
      [LkEvent.lockInternal, LkEvent.unlockInternal, LkEvent.unlockInternal,
       LkEvent.callbackCall LkErrCode.CREATE_WHILE_IN_USE] ∧
    (lksmith_pthread_mutex_init initialState (some dummyLock) true true true
      (fun _ => 0)).events.count LkEvent.unlockInternal = 2 ∧
    (lksmith_pthread_mutex_init initialState (some dummyLock) true true true
      (fun _ => 0)).events.count LkEvent.lockInternal = 1 := by
  refine ⟨rfl, by decide, by decide⟩

/-- A live lock record with a 16-bit before bitfield and bit 0 set,
the "old" record for the growth evaluation. -/
def record16 : lksmith_lock_data :=
  { nlock := 0, id := 0, before_size := 16, before := fun _ => 1 }

/-- **C6.** The claim states that growing an existing record to a
larger `before_size` preserves previously set bits and leaves every
newly added bit zero.  Evaluating `lksmith_realloc_lock_data` on a
16-bit record grown to 32 bits refutes this: the grow-path `memset`
starts at byte offset 2 of the bitfield and its length, computed as
`(new_size + 7) / 8 - before_size` in `size_t` arithmetic, wraps to
`2 ^ 64 - 29` — an out-of-bounds write reaching far past the 4 bytes
the 32-bit bitfield occupies, so the new bytes are not zero-filled as
claimed (the write tramples the rest of the address space instead). -/
theorem realloc_grow_memset_out_of_bounds :
    (lksmith_realloc_lock_data (some record16) 32 true (fun _ => 255)).msRan
      = true ∧
    (lksmith_realloc_lock_data (some record16) 32 true (fun _ => 255)).msStart
      = 2 ∧
    (lksmith_realloc_lock_data (some record16) 32 true (fun _ => 255)).msLen
      = 2 ^ 64 - 29 ∧
    (lksmith_realloc_lock_data (some record16) 32 true (fun _ => 255)).msStart
        + (lksmith_realloc_lock_data (some record16) 32 true
            (fun _ => 255)).msLen
      > BITFIELD_MEM 32 := by
  refine ⟨rfl, by decide, by decide, by decide⟩

/-- **C8.** `lksmith_verion_to_str` returns the `NAME_TOO_LONG` error
(`-ENAMETOOLONG`) whenever the buffer cannot hold the formatted
`"<major>.<minor>"` string plus its terminator (in particular a 4-byte
buffer when 5 or more characters are needed), returns the `IO_ERROR`
error (`-EIO`) when the formatting operation itself fails, and with a
sufficiently large buffer writes exactly `"<major>.<minor>"` and
returns 0.  `LKSMITH_API_VERSION` lives in the absent header, so the
theorem holds for every value `apiVer` of it. -/
theorem verion_to_str_cases (apiVer ver str_len : Nat) :
    (str_len ≤ (versionStr apiVer).length →
      (lksmith_verion_to_str apiVer ver str_len true).ret = -ENAMETOOLONG) ∧
    (lksmith_verion_to_str apiVer ver str_len false).ret = -Eio ∧
    ((versionStr apiVer).length < str_len →
      (lksmith_verion_to_str apiVer ver str_len true).ret = 0 ∧
      (lksmith_verion_to_str apiVer ver str_len true).buf
        = versionStr apiVer) := by
  refine ⟨fun h => ?_, ?_, fun h => ?_⟩
  · simp [lksmith_verion_to_str, h]
  · simp [lksmith_verion_to_str]
  · constructor <;> simp [lksmith_verion_to_str, Nat.not_le_of_lt h]

/-- Witness for C8 at `apiVer = 0x10002` (major 1, minor 2, so the
formatted string is `"1.2"`, needing a 4-byte buffer): a 3-byte buffer
fails with `-ENAMETOOLONG`, a failed format returns `-EIO`, and a
4-byte buffer receives exactly `"1.2"` with return 0. -/
theorem verion_to_str_cases_witness :
    (lksmith_verion_to_str 65538 7 3 true).ret = -ENAMETOOLONG ∧
    (lksmith_verion_to_str 65538 7 3 false).ret = -Eio ∧
    ((lksmith_verion_to_str 65538 7 4 true).ret = 0 ∧
      (lksmith_verion_to_str 65538 7 4 true).buf = versionStr 65538) := by
  refine ⟨(verion_to_str_cases 65538 7 3).1 (by decide),
          (verion_to_str_cases 65538 7 3).2.1,
          (verion_to_str_cases 65538 7 4).2.2 (by decide)⟩

/-- **C9.** The `ver` argument of `lksmith_verion_to_str` has no
influence on the result: for any two version arguments and any buffer
length and format outcome, the return code and the written string are
identical, because the output is formatted from the compile-time
constant `LKSMITH_API_VERSION` alone. -/
theorem verion_to_str_ignores_ver (apiVer v1 v2 str_len : Nat)
    (fmtOk : Bool) :
    lksmith_verion_to_str apiVer v1 str_len fmtOk
      = lksmith_verion_to_str apiVer v2 str_len fmtOk := rfl

/-- **C5.** `lksmith_pthread_mutex_init` returns `ENOMEM` exactly when
id allocation or record allocation fails, `EBUSY` exactly when both
allocations succeed but the handle's metadata slot is already occupied
at attach time, and otherwise returns 0 with the new record attached to
the previously empty slot (the set-if-absent succeeded). -/
theorem init_error_mapping (s : LkState)
    (mutexData : Option lksmith_lock_data)
    (okUsed okLocks okData : Bool) (garbage : Nat → Nat) :
    ((lksmith_pthread_mutex_init s mutexData okUsed okLocks okData
        garbage).ret = ENOMEM ↔
      (lksmith_alloc_next_lock_id s okUsed okLocks).1 = none ∨
      (lksmith_realloc_lock_data none LKSMITH_BEFORE_MIN okData
        garbage).data = none) ∧
    ((lksmith_pthread_mutex_init s mutexData okUsed okLocks okData
        garbage).ret = EBUSY ↔
      (lksmith_alloc_next_lock_id s okUsed okLocks).1 ≠ none ∧
      (lksmith_realloc_lock_data none LKSMITH_BEFORE_MIN okData
        garbage).data ≠ none ∧
      mutexData ≠ none) ∧
    ((lksmith_pthread_mutex_init s mutexData okUsed okLocks okData
        garbage).ret = 0 ↔
      (lksmith_alloc_next_lock_id s okUsed okLocks).1 ≠ none ∧
      (lksmith_realloc_lock_data none LKSMITH_BEFORE_MIN okData
        garbage).data ≠ none ∧
      mutexData = none) ∧
    ((lksmith_pthread_mutex_init s mutexData okUsed okLocks okData
        garbage).ret = 0 →
      (lksmith_pthread_mutex_init s mutexData okUsed okLocks okData
        garbage).mutexData.isSome = true) := by
  rcases h1 : lksmith_alloc_next_lock_id s okUsed okLocks with ⟨oid, s1⟩
  rcases oid with _ | next_id
  · simp [lksmith_pthread_mutex_init, h1, ENOMEM, EBUSY]
  · rcases h2 : (lksmith_realloc_lock_data none LKSMITH_BEFORE_MIN okData
      garbage).data with _ | d0
    · simp [lksmith_pthread_mutex_init, h1, h2, ENOMEM, EBUSY]
    · rcases mutexData with _ | prev
      · simp [lksmith_pthread_mutex_init, h1, h2, ENOMEM, EBUSY]
      · simp [lksmith_pthread_mutex_init, h1, h2, ENOMEM, EBUSY]

/-- Witness for C5: the whole statement instantiated at the fresh
mutex, process-start state, all allocations succeeding. -/
theorem init_error_mapping_witness :
    ((lksmith_pthread_mutex_init initialState none true true true
        (fun _ => 0)).ret = ENOMEM ↔
      (lksmith_alloc_next_lock_id initialState true true).1 = none ∨
      (lksmith_realloc_lock_data none LKSMITH_BEFORE_MIN true
        (fun _ => 0)).data = none) ∧
    ((lksmith_pthread_mutex_init initialState none true true true
        (fun _ => 0)).ret = EBUSY ↔
      (lksmith_alloc_next_lock_id initialState true true).1 ≠ none ∧
      (lksmith_realloc_lock_data none LKSMITH_BEFORE_MIN true
        (fun _ => 0)).data ≠ none ∧
      (none : Option lksmith_lock_data) ≠ none) ∧
    ((lksmith_pthread_mutex_init initialState none true true true
        (fun _ => 0)).ret = 0 ↔
      (lksmith_alloc_next_lock_id initialState true true).1 ≠ none ∧
      (lksmith_realloc_lock_data none LKSMITH_BEFORE_MIN true
        (fun _ => 0)).data ≠ none ∧
      (none : Option lksmith_lock_data) = none) ∧
    ((lksmith_pthread_mutex_init initialState none true true true
        (fun _ => 0)).ret = 0 →
      (lksmith_pthread_mutex_init initialState none true true true
        (fun _ => 0)).mutexData.isSome = true) :=
  init_error_mapping initialState none true true true (fun _ => 0)

/-! ## Helper lemmas about the spec-modelled Violation Detector -/

theorem setEdge_mono {g : Nat → Nat → Bool} {h L a b : Nat}
    (hg : g a b = true) : setEdge g h L a b = true := by
  unfold setEdge
  split
  · rfl
  · exact hg

theorem reachFuel_direct {g : Nat → Nat → Bool} {n A B : Nat}
    (hg : g A B = true) : reachFuel g n (n + 1) A B = true := by
  simp [reachFuel, hg]

theorem detectLoop_count {A B : Nat} (n : Nat) :
    ∀ (H : List Nat) (g : Nat → Nat → Bool), g A B = true →
      (detectLoop n A g H).2.count (SpecReport.orderViolation A B)
        = H.count B
  | [], g, _ => by simp [detectLoop]
  | h :: rest, g, hg => by
    by_cases hr : reachFuel g n (n + 1) A h = true
    · have hrec := detectLoop_count n rest g hg
      simp only [detectLoop, hr, if_true, List.count_cons, hrec,
        SpecReport.orderViolation.injEq]
      by_cases he : h = B <;> simp [he]
    · have hne : h ≠ B := fun he => hr (he ▸ reachFuel_direct hg)
      have hrec := detectLoop_count n rest (setEdge g h A) (setEdge_mono hg)
      simp only [detectLoop, hr, if_false, Bool.false_eq_true, hrec,
        List.count_cons]
      simp [hne]

/-- **C1.** If the before-edge `A → B` has been recorded (bit `B` set
in `A`'s before-set), then an acquisition of `A` by a thread whose
hold-context still contains `B` triggers exactly one
`LOCK_ORDER_VIOLATION` report identifying both `A` and `B`, and the
acquisition itself still proceeds: `A` is pushed onto the hold-context,
never failed or blocked by the detector.  (The hold-context invariant —
an id appears at most once — is the `Nodup` hypothesis.) -/
theorem acquire_reports_violation_once (g : Nat → Nat → Bool)
    (n : Nat) (H : List Nat) (A B : Nat)
    (hEdge : g A B = true) (hMem : B ∈ H) (hNodup : H.Nodup) :
    (specAcquire g n H A).reports.count (SpecReport.orderViolation A B)
      = 1 ∧
    (specAcquire g n H A).ctx = H ++ [A] := by
  constructor
  · show (detectLoop n A g H).2.count (SpecReport.orderViolation A B) = 1
    rw [detectLoop_count n H g hEdge]
    exact List.count_eq_one_of_mem hNodup hMem
  · rfl

/-- Witness for C1: two locks, edge `0 → 1` recorded, a thread holding
lock 1 acquires lock 0 — exactly one violation report naming 0 and 1,
and the context afterwards is `[1, 0]`. -/
theorem acquire_reports_violation_once_witness :
    (specAcquire (fun a b => a == 0 && b == 1) 2 [1] 0).reports.count
        (SpecReport.orderViolation 0 1) = 1 ∧
    (specAcquire (fun a b => a == 0 && b == 1) 2 [1] 0).ctx = [1] ++ [0] :=
  acquire_reports_violation_once (fun a b => a == 0 && b == 1) 2 [1] 0 1
    (by decide) (by decide) (by decide)

end Lksmith
